import Mathlib

/-!
Shallow embedding of `src/main.cpp` (an ffmpeg muxing example that writes a
5-second test pattern to `test.avi`), together with proofs about its
scheduler loop, pipeline steps, resample-buffer management and timestamp
rescaling.  Machine doubles that only carry exact small values are modelled
as rationals; the external encoder/converter/container engines are modelled
as oracles whose per-call outcomes are inputs to the embedded functions.
-/

/-! ## Timebase conversion (Writer, `write_frame`, lines 54-62)

`write_frame` rescales packet timestamps with
`av_rescale_q_rnd(.., AV_ROUND_NEAR_INF)`.  That library routine is not part
of this repository's sources, so it is modelled from the spec. -/

/-- Integer division of `a` by a positive `b` rounding to the nearest
integer, halfway cases away from zero. -/
def nearAwayDiv (a b : ℤ) : ℤ :=
  if 0 ≤ a then (2 * a + b) / (2 * b) else -((2 * (-a) + b) / (2 * b))

/-- Rational timebase `num/den`, mirroring `AVRational`. -/
structure AVRational where
  num : ℤ
  den : ℤ
deriving DecidableEq

/-- Valid timebase: a positive rational (positive numerator and denominator). -/
def AVRational.valid (r : AVRational) : Prop := 0 < r.num ∧ 0 < r.den

instance (r : AVRational) : Decidable r.valid := by
  unfold AVRational.valid; infer_instance

/-- Modelled from the spec: the Timebase Converter contract (§4.1) used by the
Writer — `av_rescale_q_rnd` with `AV_ROUND_NEAR_INF`, i.e.
`value * fromBase.num * toBase.den / (fromBase.den * toBase.num)` rounded to
the nearest integer with ties away from zero.  The routine itself lives in
libavutil, not in this repository's sources. -/
def av_rescale_q_near (v : ℤ) (bq cq : AVRational) : ℤ :=
  nearAwayDiv (v * bq.num * cq.den) (bq.den * cq.num)

/-! ## Sample Buffer Manager (`write_audio_frame`, lines 229-238)

The destination sample buffer `dst_samples_data` with its capacity
`max_dst_nb_samples` and byte size `dst_samples_size`.  `bufId` counts
allocations: it changes exactly when the storage is replaced.  `sizeFn`
stands for the external `av_samples_get_buffer_size`. -/

structure BufState where
  cap : ℕ
  bufId : ℕ
  size : ℕ
deriving DecidableEq

/-- Growth step of lines 230-238: reallocate only when the request exceeds
the current capacity, and then size the new storage exactly to the request. -/
def ensureCapacity (sizeFn : ℕ → ℕ) (n : ℕ) (b : BufState) : BufState :=
  if n > b.cap then ⟨n, b.bufId + 1, sizeFn n⟩ else b

/-- Buffer state right after `open_audio`: capacity `src_nb_samples`. -/
def initBuf (sizeFn : ℕ → ℕ) (srcN : ℕ) : BufState := ⟨srcN, 0, sizeFn srcN⟩

/-! ## The run: global state and per-step oracles

`main` drives two pipelines from a single loop.  The external engines
(encoder, resampler, pixel converter, container writer) are modelled by
per-call outcomes supplied by an oracle. -/

/-- Outcome of one `avcodec_encode_*2` call followed by the optional
`write_frame`: a hard encoder error (`exit(1)`), no packet this call
(`got_packet == 0`), or a packet with the writer's success flag and the
packet's timestamp as produced by the encoder. -/
inductive EncOutcome where
  | err : EncOutcome
  | silent : EncOutcome
  | pkt : Bool → ℤ → EncOutcome
deriving DecidableEq

/-- External outcomes consumed by one `write_audio_frame` call: the
resampler delay `swr_get_delay` (so the required output count is
`delay + src_nb_samples`), whether `av_samples_alloc` succeeds if growth is
needed, whether `swr_convert` succeeds, and the encode/write outcome. -/
structure AudioCall where
  delay : ℕ
  allocOk : Bool
  convOk : Bool
  enc : EncOutcome
deriving DecidableEq

/-- External outcomes consumed by one `write_video_frame` call: whether the
lazy `sws_getContext` succeeds (consulted only on the first non-flush call)
and the encode/write outcome. -/
structure VideoCall where
  swsOk : Bool
  enc : EncOutcome
deriving DecidableEq

/-- Oracle: outcome of the `k`-th call of each pipeline's emit step. -/
structure Oracle where
  audio : ℕ → AudioCall
  video : ℕ → VideoCall

/-- Run parameters that the sources take from the opened codecs:
`srcN` is `c->frame_size` (`src_nb_samples`), `hasSwr` whether the audio
codec's sample format differs from S16 (so a resampler exists), `atbNum` and
`atbDen` the audio stream's container timebase after the header is written,
and `sizeFn` models `av_samples_get_buffer_size`. -/
structure Params where
  srcN : ℕ
  hasSwr : Bool
  atbNum : ℤ
  atbDen : ℤ
  sizeFn : ℕ → ℕ

/-- Where the process stands: in the scheduler loop, finished normally
(`av_write_trailer` on line 498 was reached), or terminated by `exit(1)` or
an early `return 1` — in which case the trailer is never attempted. -/
inductive Phase where
  | running : Phase
  | done : Phase
  | aborted : Phase
deriving DecidableEq

/-- Global mutable state of `main.cpp` (the ambient globals plus `main`'s
locals).  `audio_pts` and `video_pts` are C doubles that carry exact small
rationals here; `acalls`/`vcalls` count how often each emit step has been
invoked (they index the oracle and record scheduling decisions). -/
structure MuxState where
  phase : Phase
  flush : Bool
  audio_is_eof : Bool
  video_is_eof : Bool
  samples_count : ℕ
  frame_count : ℕ
  audio_pts : ℚ
  video_pts : ℚ
  buf : BufState
  swsInit : Bool
  acalls : ℕ
  vcalls : ℕ
deriving DecidableEq

/-- State after setup and `avformat_write_header` (line 468): phase depends
on whether the header write succeeded (`ret < 0` means `return 1`). -/
def initState (p : Params) (hdr : Bool) : MuxState :=
  { phase := if hdr then Phase.running else Phase.aborted
    flush := false
    audio_is_eof := false
    video_is_eof := false
    samples_count := 0
    frame_count := 0
    audio_pts := 0
    video_pts := 0
    buf := initBuf p.sizeFn p.srcN
    swsInit := false
    acalls := 0
    vcalls := 0 }

/-- Tail of `write_audio_frame` from line 254: encode, maybe write, maybe
mark end of stream, maybe recompute `audio_pts` (line 270). -/
def audio_encode_emit (p : Params) (call : AudioCall) (flush : Bool) (s : MuxState) : MuxState :=
  match call.enc with
  | EncOutcome.err => { s with phase := Phase.aborted }
  | EncOutcome.silent =>
      if flush then { s with audio_is_eof := true } else s
  | EncOutcome.pkt writeOk _pts =>
      if writeOk then
        { s with audio_pts :=
            (s.samples_count : ℚ) * (p.atbDen : ℚ) / (p.atbNum : ℚ) / 48000 }
      else { s with phase := Phase.aborted }

/-- `write_audio_frame` (lines 217-271): on a non-flush call pull samples,
resample (growing the destination buffer on demand), advance
`samples_count`; then encode and emit. -/
def write_audio_frame (p : Params) (call : AudioCall) (flush : Bool) (s : MuxState) : MuxState :=
  if flush then audio_encode_emit p call flush s
  else if p.hasSwr then
    let dstN := call.delay + p.srcN
    if dstN > s.buf.cap ∧ call.allocOk = false then { s with phase := Phase.aborted }
    else
      let s1 := { s with buf := ensureCapacity p.sizeFn dstN s.buf }
      if call.convOk = false then { s1 with phase := Phase.aborted }
      else audio_encode_emit p call flush
        { s1 with samples_count := s1.samples_count + dstN }
  else audio_encode_emit p call flush
    { s with samples_count := s.samples_count + p.srcN }

/-- Tail of `write_video_frame` from line 379: encode, maybe write, maybe
mark end of stream, then record `video_pts = frame->pts` and advance
`frame_count` (lines 403-404). -/
def video_encode_emit (call : VideoCall) (flush : Bool) (s : MuxState) : MuxState :=
  match call.enc with
  | EncOutcome.err => { s with phase := Phase.aborted }
  | EncOutcome.silent =>
      let s1 := if flush then { s with video_is_eof := true } else s
      { s1 with video_pts := (s1.frame_count : ℚ), frame_count := s1.frame_count + 1 }
  | EncOutcome.pkt writeOk _pts =>
      if writeOk then
        { s with video_pts := (s.frame_count : ℚ), frame_count := s.frame_count + 1 }
      else { s with phase := Phase.aborted }

/-- `write_video_frame` (lines 350-405): on a non-flush call lazily create
the scaler context once, convert the generated image, then encode/emit. -/
def write_video_frame (call : VideoCall) (flush : Bool) (s : MuxState) : MuxState :=
  if flush = false ∧ s.swsInit = false then
    if call.swsOk then video_encode_emit call flush { s with swsInit := true }
    else { s with phase := Phase.aborted }
  else video_encode_emit call flush s

/-- Running audio presentation time of line 476:
`audio_pts * av_q2d(audio_st->time_base)`, `INFINITY` (`none`) at EOF. -/
def audioTime (p : Params) (s : MuxState) : Option ℚ :=
  if s.audio_is_eof then none
  else some (s.audio_pts * ((p.atbNum : ℚ) / (p.atbDen : ℚ)))

/-- Running video presentation time of line 477: the video stream timebase
is 100/2997 (lines 452-453), so `video_pts * (100/2997)`; `INFINITY` at EOF. -/
def videoTime (s : MuxState) : Option ℚ :=
  if s.video_is_eof then none else some (s.video_pts * (100 / 2997))

/-- IEEE comparison `x <= y` where `none` stands for `INFINITY`. -/
def timeLE : Option ℚ → Option ℚ → Bool
  | some a, some b => a ≤ b
  | some _, none => true
  | none, some _ => false
  | none, none => true

/-- IEEE comparison `x < y` where `none` stands for `INFINITY`. -/
def timeLT : Option ℚ → Option ℚ → Bool
  | some a, some b => a < b
  | some _, none => true
  | none, _ => false

/-- IEEE comparison `x >= STREAM_DURATION` (5.0 seconds), true at `INFINITY`. -/
def durationReached : Option ℚ → Bool
  | some a => 5 ≤ a
  | none => true

/-- Value of `flush` right after the test on lines 480-482 of the current
iteration: once every stream's time (with `INFINITY` for a finished stream)
has reached the 5.0-second target, `flush` is turned on and then kept. -/
def flushAfter (p : Params) (s : MuxState) : Bool :=
  s.flush || (durationReached (audioTime p s) && durationReached (videoTime s))

/-- One iteration of the scheduler loop of `main` (lines 474-493), including
the loop-condition test: when the loop condition fails the program falls
through to `av_write_trailer` (phase `done`). -/
def sched_step (p : Params) (ora : Oracle) (s : MuxState) : MuxState :=
  if s.phase = Phase.running then
    if s.audio_is_eof ∧ s.video_is_eof then { s with phase := Phase.done }
    else
      if s.audio_is_eof = false ∧ timeLE (audioTime p s) (videoTime s) then
        write_audio_frame p (ora.audio s.acalls) (flushAfter p s)
          { s with flush := flushAfter p s, acalls := s.acalls + 1 }
      else if s.video_is_eof = false ∧ timeLT (videoTime s) (audioTime p s) then
        write_video_frame (ora.video s.vcalls) (flushAfter p s)
          { s with flush := flushAfter p s, vcalls := s.vcalls + 1 }
      else { s with flush := flushAfter p s }
  else s

/-- The whole run after `n` scheduler iterations, starting right after the
header write attempt (`hdr` is its success). -/
def muxRun (p : Params) (ora : Oracle) (hdr : Bool) : ℕ → MuxState
  | 0 => initState p hdr
  | n + 1 => sched_step p ora (muxRun p ora hdr n)

/-- Whether the encode call produced no packet (`got_packet == 0`). -/
def isSilent : EncOutcome → Bool
  | EncOutcome.silent => true
  | _ => false

/-! ### Derived per-iteration conditions of the scheduler loop -/

/-- Loop condition of line 474 (both streams exist in this program). -/
def loopActive (s : MuxState) : Bool := !(s.audio_is_eof && s.video_is_eof)

/-- The current iteration runs and sees every stream's time at or past the
target duration, so lines 480-482 turn `flush` on. -/
def flushCond (p : Params) (s : MuxState) : Bool :=
  decide (s.phase = Phase.running) && loopActive s &&
    (durationReached (audioTime p s) && durationReached (videoTime s))

/-- The current iteration selects the audio stream (line 484). -/
def audioSelected (p : Params) (s : MuxState) : Bool :=
  decide (s.phase = Phase.running) && loopActive s &&
    !s.audio_is_eof && timeLE (audioTime p s) (videoTime s)

/-- The current iteration selects the video stream (line 488). -/
def videoSelected (p : Params) (s : MuxState) : Bool :=
  decide (s.phase = Phase.running) && loopActive s &&
    !s.video_is_eof && timeLT (videoTime s) (audioTime p s)

/-- The current iteration calls the audio emit step in flushing mode and the
encoder stays silent: the definitive audio EOF signal (lines 259-263). -/
def audioEofTrigger (p : Params) (ora : Oracle) (s : MuxState) : Bool :=
  audioSelected p s && flushAfter p s && isSilent (ora.audio s.acalls).enc

/-- The current iteration calls the video emit step in flushing mode and the
encoder stays silent: the definitive video EOF signal (lines 392-395). -/
def videoEofTrigger (p : Params) (ora : Oracle) (s : MuxState) : Bool :=
  videoSelected p s && flushAfter p s && isSilent (ora.video s.vcalls).enc

/-! ## Trailer attempt, setup assertions, concrete sample inputs -/

/-- The run has reached `av_write_trailer` (line 498): only the normal fall
through of the scheduler loop gets there; every `exit(1)` and the header
failure `return 1` bypass it. -/
def trailerAttempted (s : MuxState) : Bool := decide (s.phase = Phase.done)

/-- Whether one `write_video_frame` call hits an `exit(1)` path: scaler
creation fails on the first non-flush call, the encoder errors, or the
writer fails on a produced packet. -/
def videoCallAborts (c : VideoCall) (f : Bool) (s : MuxState) : Bool :=
  (!f && !s.swsInit && !c.swsOk) ||
    (match c.enc with
      | EncOutcome.err => true
      | EncOutcome.silent => false
      | EncOutcome.pkt w _ => !w)

/-- Codec identifiers that matter to `main` (lines 440-447). -/
inductive CodecID where
  | idNone : CodecID
  | mp3 : CodecID
  | mpeg4 : CodecID
  | ac3 : CodecID
  | mpeg2video : CodecID
deriving DecidableEq

/-- A container format's default codec pair, as deduced by
`avformat_alloc_output_context2` from the output path. -/
structure OutputFormat where
  audio_codec : CodecID
  video_codec : CodecID
deriving DecidableEq

/-- Modelled from the spec: the container format deduced from the fixed
output path `test.avi` (extension-based inference, spec section 6).  The
deduction itself happens inside libavformat, not in this repository's
sources; the program's own asserts (lines 440-441) pin its default codecs
to MP3 audio and MPEG-4 video. -/
def deducedAviFormat : OutputFormat := ⟨CodecID.mp3, CodecID.mpeg4⟩

/-- Setup gate of `main` lines 440-447: the two asserts abort the process
unless the deduced format defaults to MP3/MPEG-4; past them, the streams are
added with exactly the format's default codec pair. -/
def setupCodecs (fmt : OutputFormat) : Option (CodecID × CodecID) :=
  if fmt.audio_codec = CodecID.mp3 ∧ fmt.video_codec = CodecID.mpeg4 then
    some (fmt.audio_codec, fmt.video_codec)
  else none

/-- Concrete run parameters for witnesses: MP3's frame size 1152, a planar
sample format (so a resampler exists), audio stream timebase 1/48000. -/
def sampleParams : Params := ⟨1152, true, 1, 48000, fun n => n⟩

/-- Concrete oracle for witnesses: every call converts, allocates and emits
a written packet. -/
def sampleOracle : Oracle :=
  ⟨fun _ => ⟨0, true, true, EncOutcome.pkt true 0⟩,
    fun _ => ⟨true, EncOutcome.pkt true 0⟩⟩

/-- Concrete oracle whose encoder fails immediately. -/
def errOracle : Oracle :=
  ⟨fun _ => ⟨0, true, true, EncOutcome.err⟩,
    fun _ => ⟨true, EncOutcome.err⟩⟩

/-- Concrete loop state with both streams already at end of stream. -/
def sampleEofState : MuxState :=
  { initState sampleParams true with audio_is_eof := true, video_is_eof := true }

lemma nearAwayDiv_nonneg_eq (a b : ℤ) (ha : 0 ≤ a) :
    nearAwayDiv a b = (2 * a + b) / (2 * b) := by
  unfold nearAwayDiv; rw [if_pos ha]

lemma nearAwayDiv_neg_eq (a b : ℤ) (ha : ¬ 0 ≤ a) :
    nearAwayDiv a b = -((2 * (-a) + b) / (2 * b)) := by
  unfold nearAwayDiv; rw [if_neg ha]

/-- Monotonicity of nearest-away rounding division in the dividend. -/
lemma nearAwayDiv_mono {a₁ a₂ b : ℤ} (hb : 0 < b) (h : a₁ ≤ a₂) :
    nearAwayDiv a₁ b ≤ nearAwayDiv a₂ b := by
  have h2b : (0 : ℤ) < 2 * b := by linarith
  by_cases h1 : 0 ≤ a₁
  · have h2 : 0 ≤ a₂ := le_trans h1 h
    rw [nearAwayDiv_nonneg_eq _ _ h1, nearAwayDiv_nonneg_eq _ _ h2]
    exact Int.ediv_le_ediv h2b (by linarith)
  · by_cases h2 : 0 ≤ a₂
    · rw [nearAwayDiv_neg_eq _ _ h1, nearAwayDiv_nonneg_eq _ _ h2]
      have hL : 0 ≤ (2 * (-a₁) + b) / (2 * b) :=
        Int.ediv_nonneg (by linarith [not_le.mp h1]) (le_of_lt h2b)
      have hR : 0 ≤ (2 * a₂ + b) / (2 * b) :=
        Int.ediv_nonneg (by linarith) (le_of_lt h2b)
      linarith
    · rw [nearAwayDiv_neg_eq _ _ h1, nearAwayDiv_neg_eq _ _ h2]
      have : (2 * (-a₂) + b) / (2 * b) ≤ (2 * (-a₁) + b) / (2 * b) :=
        Int.ediv_le_ediv h2b (by linarith)
      linarith

/-- Division comes out exact on exact multiples: no rounding happens. -/
lemma nearAwayDiv_mul_cancel (c b : ℤ) (hb : 0 < b) :
    nearAwayDiv (c * b) b = c := by
  have h2b : (0 : ℤ) < 2 * b := by linarith
  have hne : (2 : ℤ) * b ≠ 0 := ne_of_gt h2b
  by_cases hc : 0 ≤ c
  · have ha : 0 ≤ c * b := mul_nonneg hc (le_of_lt hb)
    rw [nearAwayDiv_nonneg_eq _ _ ha]
    have : 2 * (c * b) + b = b + c * (2 * b) := by ring
    rw [this, Int.add_mul_ediv_right _ _ hne,
      Int.ediv_eq_zero_of_lt (le_of_lt hb) (by linarith), zero_add]
  · have hcneg : c < 0 := lt_of_not_ge hc
    have ha : ¬ 0 ≤ c * b := by
      have : c * b < 0 := mul_neg_of_neg_of_pos hcneg hb
      linarith
    rw [nearAwayDiv_neg_eq _ _ ha]
    have : 2 * (-(c * b)) + b = b + (-c) * (2 * b) := by ring
    rw [this, Int.add_mul_ediv_right _ _ hne,
      Int.ediv_eq_zero_of_lt (le_of_lt hb) (by linarith), zero_add, neg_neg]

/-- Rescaling with a valid source and target timebase is monotone. -/
lemma av_rescale_q_near_mono {v₁ v₂ : ℤ} (bq cq : AVRational)
    (hb : bq.valid) (hc : cq.valid) (h : v₁ ≤ v₂) :
    av_rescale_q_near v₁ bq cq ≤ av_rescale_q_near v₂ bq cq := by
  unfold av_rescale_q_near
  have hden : 0 < bq.den * cq.num := mul_pos hb.2 hc.1
  apply nearAwayDiv_mono hden
  have h1 : v₁ * bq.num ≤ v₂ * bq.num :=
    mul_le_mul_of_nonneg_right h (le_of_lt hb.1)
  exact mul_le_mul_of_nonneg_right h1 (le_of_lt hc.2)

lemma ensureCapacity_cap (sizeFn : ℕ → ℕ) (n : ℕ) (b : BufState) :
    (ensureCapacity sizeFn n b).cap = max b.cap n := by
  unfold ensureCapacity
  split <;> rename_i h <;> simp <;> omega

lemma foldl_ensureCapacity_cap (sizeFn : ℕ → ℕ) (l : List ℕ) (b : BufState) :
    (l.foldl (fun st r => ensureCapacity sizeFn r st) b).cap = l.foldl max b.cap := by
  induction l generalizing b with
  | nil => rfl
  | cons h t ih => simp only [List.foldl_cons, ih, ensureCapacity_cap]

/-! ### Invariance of the pipeline steps over foreign fields -/

lemma audio_encode_emit_keeps (p : Params) (c : AudioCall) (f : Bool) (s : MuxState) :
    (audio_encode_emit p c f s).acalls = s.acalls ∧
    (audio_encode_emit p c f s).vcalls = s.vcalls ∧
    (audio_encode_emit p c f s).flush = s.flush ∧
    (audio_encode_emit p c f s).video_is_eof = s.video_is_eof ∧
    (audio_encode_emit p c f s).frame_count = s.frame_count ∧
    (audio_encode_emit p c f s).video_pts = s.video_pts ∧
    (audio_encode_emit p c f s).swsInit = s.swsInit ∧
    (audio_encode_emit p c f s).samples_count = s.samples_count := by
  obtain ⟨d, al, cv, e⟩ := c
  rcases e with _ | _ | ⟨w, pts⟩ <;> (try cases w) <;> cases f <;>
    simp_all [audio_encode_emit]

lemma write_audio_frame_keeps (p : Params) (c : AudioCall) (f : Bool) (s : MuxState) :
    (write_audio_frame p c f s).acalls = s.acalls ∧
    (write_audio_frame p c f s).vcalls = s.vcalls ∧
    (write_audio_frame p c f s).flush = s.flush ∧
    (write_audio_frame p c f s).video_is_eof = s.video_is_eof ∧
    (write_audio_frame p c f s).frame_count = s.frame_count ∧
    (write_audio_frame p c f s).video_pts = s.video_pts ∧
    (write_audio_frame p c f s).swsInit = s.swsInit := by
  obtain ⟨d, al, cv, e⟩ := c
  unfold write_audio_frame
  split_ifs <;> rcases e with _ | _ | ⟨w, pts⟩ <;> (try cases w) <;> cases f <;>
    (try split_ifs) <;> simp_all [audio_encode_emit, apply_ite]

lemma write_audio_frame_eof (p : Params) (c : AudioCall) (f : Bool) (s : MuxState) :
    (write_audio_frame p c f s).audio_is_eof = (s.audio_is_eof || (f && isSilent c.enc)) := by
  obtain ⟨d, al, cv, e⟩ := c
  unfold write_audio_frame
  split_ifs <;> rcases e with _ | _ | ⟨w, pts⟩ <;> (try cases w) <;> cases f <;>
    (try split_ifs) <;> simp_all [audio_encode_emit, apply_ite, isSilent]

lemma write_audio_frame_phase (p : Params) (c : AudioCall) (f : Bool) (s : MuxState)
    (hrun : s.phase = Phase.running) :
    (write_audio_frame p c f s).phase ≠ Phase.done := by
  obtain ⟨d, al, cv, e⟩ := c
  unfold write_audio_frame
  split_ifs <;> rcases e with _ | _ | ⟨w, pts⟩ <;> (try cases w) <;> cases f <;>
    (try split_ifs) <;> simp_all [audio_encode_emit, apply_ite, ite_eq_iff]

lemma video_encode_emit_keeps (c : VideoCall) (f : Bool) (s : MuxState) :
    (video_encode_emit c f s).acalls = s.acalls ∧
    (video_encode_emit c f s).vcalls = s.vcalls ∧
    (video_encode_emit c f s).flush = s.flush ∧
    (video_encode_emit c f s).audio_is_eof = s.audio_is_eof ∧
    (video_encode_emit c f s).samples_count = s.samples_count ∧
    (video_encode_emit c f s).audio_pts = s.audio_pts ∧
    (video_encode_emit c f s).buf = s.buf := by
  obtain ⟨sw, e⟩ := c
  rcases e with _ | _ | ⟨w, pts⟩ <;> (try cases w) <;> cases f <;>
    simp_all [video_encode_emit]

lemma write_video_frame_keeps (c : VideoCall) (f : Bool) (s : MuxState) :
    (write_video_frame c f s).acalls = s.acalls ∧
    (write_video_frame c f s).vcalls = s.vcalls ∧
    (write_video_frame c f s).flush = s.flush ∧
    (write_video_frame c f s).audio_is_eof = s.audio_is_eof ∧
    (write_video_frame c f s).samples_count = s.samples_count ∧
    (write_video_frame c f s).audio_pts = s.audio_pts ∧
    (write_video_frame c f s).buf = s.buf := by
  obtain ⟨sw, e⟩ := c
  unfold write_video_frame
  split_ifs <;> rcases e with _ | _ | ⟨w, pts⟩ <;> (try cases w) <;> cases f <;>
    (try split_ifs) <;> simp_all [video_encode_emit, apply_ite]

lemma write_video_frame_eof (c : VideoCall) (f : Bool) (s : MuxState) :
    (write_video_frame c f s).video_is_eof = (s.video_is_eof || (f && isSilent c.enc)) := by
  obtain ⟨sw, e⟩ := c
  unfold write_video_frame
  split_ifs <;> rcases e with _ | _ | ⟨w, pts⟩ <;> (try cases w) <;> cases f <;>
    (try split_ifs) <;> simp_all [video_encode_emit, apply_ite, isSilent]

lemma write_video_frame_phase (c : VideoCall) (f : Bool) (s : MuxState)
    (hrun : s.phase = Phase.running) :
    (write_video_frame c f s).phase ≠ Phase.done := by
  obtain ⟨sw, e⟩ := c
  unfold write_video_frame
  split_ifs <;> rcases e with _ | _ | ⟨w, pts⟩ <;> (try cases w) <;> cases f <;>
    (try split_ifs) <;> simp_all [video_encode_emit, apply_ite, ite_eq_iff]

lemma timeLT_eq_not_timeLE (a b : Option ℚ) : timeLT b a = !(timeLE a b) := by
  rcases a with _ | x <;> rcases b with _ | y
  · rfl
  · rfl
  · rfl
  · show decide (y < x) = !decide (x ≤ y)
    rw [← decide_not]
    exact decide_eq_decide.mpr not_le.symm

lemma sched_step_not_running (p : Params) (ora : Oracle) (s : MuxState)
    (hp : s.phase ≠ Phase.running) : sched_step p ora s = s := by
  unfold sched_step
  rw [if_neg hp]

lemma bothEof_false (s : MuxState) (hb : ¬(s.audio_is_eof = true ∧ s.video_is_eof = true)) :
    (s.audio_is_eof && s.video_is_eof) = false := by
  cases ha : s.audio_is_eof <;> cases hv : s.video_is_eof <;> simp_all

lemma audioSelected_false_of_not (p : Params) (s : MuxState)
    (hA : ¬(s.audio_is_eof = false ∧ timeLE (audioTime p s) (videoTime s) = true)) :
    audioSelected p s = false := by
  unfold audioSelected
  cases ha : s.audio_is_eof <;>
    cases ht : timeLE (audioTime p s) (videoTime s) <;> simp_all

lemma videoSelected_false_of_le (p : Params) (s : MuxState)
    (hA : timeLE (audioTime p s) (videoTime s) = true) :
    videoSelected p s = false := by
  unfold videoSelected
  rw [timeLT_eq_not_timeLE, hA]
  simp

lemma videoSelected_false_of_not (p : Params) (s : MuxState)
    (hV : ¬(s.video_is_eof = false ∧ timeLT (videoTime s) (audioTime p s) = true)) :
    videoSelected p s = false := by
  unfold videoSelected
  cases hv : s.video_is_eof <;>
    cases ht : timeLT (videoTime s) (audioTime p s) <;> simp_all

lemma sched_step_flush (p : Params) (ora : Oracle) (s : MuxState) :
    (sched_step p ora s).flush = (s.flush || flushCond p s) := by
  unfold sched_step
  by_cases hp : s.phase = Phase.running
  · rw [if_pos hp]
    by_cases hb : s.audio_is_eof = true ∧ s.video_is_eof = true
    · rw [if_pos hb]
      simp [flushCond, loopActive, hb.1, hb.2]
    · have hb' := bothEof_false s hb
      rw [if_neg hb]
      by_cases hA : s.audio_is_eof = false ∧ timeLE (audioTime p s) (videoTime s) = true
      · rw [if_pos hA, (write_audio_frame_keeps _ _ _ _).2.2.1]
        simp [flushAfter, flushCond, loopActive, hp, hb']
      · rw [if_neg hA]
        by_cases hV : s.video_is_eof = false ∧ timeLT (videoTime s) (audioTime p s) = true
        · rw [if_pos hV, (write_video_frame_keeps _ _ _).2.2.1]
          simp [flushAfter, flushCond, loopActive, hp, hb']
        · rw [if_neg hV]
          simp [flushAfter, flushCond, loopActive, hp, hb']
  · rw [if_neg hp]
    simp [flushCond, hp]

lemma sched_step_audio_eof (p : Params) (ora : Oracle) (s : MuxState) :
    (sched_step p ora s).audio_is_eof = (s.audio_is_eof || audioEofTrigger p ora s) := by
  unfold sched_step
  by_cases hp : s.phase = Phase.running
  · rw [if_pos hp]
    by_cases hb : s.audio_is_eof = true ∧ s.video_is_eof = true
    · rw [if_pos hb]
      simp [hb.1]
    · have hb' := bothEof_false s hb
      rw [if_neg hb]
      by_cases hA : s.audio_is_eof = false ∧ timeLE (audioTime p s) (videoTime s) = true
      · rw [if_pos hA, write_audio_frame_eof]
        simp [audioEofTrigger, audioSelected, loopActive, hp, hb', hA.1, hA.2,
          Bool.and_assoc]
      · have hA' := audioSelected_false_of_not p s hA
        rw [if_neg hA]
        by_cases hV : s.video_is_eof = false ∧ timeLT (videoTime s) (audioTime p s) = true
        · rw [if_pos hV, (write_video_frame_keeps _ _ _).2.2.2.1]
          simp [audioEofTrigger, hA']
        · rw [if_neg hV]
          simp [audioEofTrigger, hA']
  · rw [if_neg hp]
    simp [audioEofTrigger, audioSelected, hp]

lemma sched_step_video_eof (p : Params) (ora : Oracle) (s : MuxState) :
    (sched_step p ora s).video_is_eof = (s.video_is_eof || videoEofTrigger p ora s) := by
  unfold sched_step
  by_cases hp : s.phase = Phase.running
  · rw [if_pos hp]
    by_cases hb : s.audio_is_eof = true ∧ s.video_is_eof = true
    · rw [if_pos hb]
      simp [hb.2]
    · have hb' := bothEof_false s hb
      rw [if_neg hb]
      by_cases hA : s.audio_is_eof = false ∧ timeLE (audioTime p s) (videoTime s) = true
      · have hV' := videoSelected_false_of_le p s hA.2
        rw [if_pos hA, (write_audio_frame_keeps _ _ _ _).2.2.2.1]
        simp [videoEofTrigger, hV']
      · rw [if_neg hA]
        by_cases hV : s.video_is_eof = false ∧ timeLT (videoTime s) (audioTime p s) = true
        · rw [if_pos hV, write_video_frame_eof]
          simp [videoEofTrigger, videoSelected, loopActive, hp, hb', hV.1, hV.2,
            Bool.and_assoc]
        · have hV' := videoSelected_false_of_not p s hV
          rw [if_neg hV]
          simp [videoEofTrigger, hV']
  · rw [if_neg hp]
    simp [videoEofTrigger, videoSelected, hp]

lemma sched_step_acalls (p : Params) (ora : Oracle) (s : MuxState) :
    (sched_step p ora s).acalls =
      (if audioSelected p s = true then s.acalls + 1 else s.acalls) := by
  unfold sched_step
  by_cases hp : s.phase = Phase.running
  · rw [if_pos hp]
    by_cases hb : s.audio_is_eof = true ∧ s.video_is_eof = true
    · have hA' : audioSelected p s = false := by
        unfold audioSelected
        simp [loopActive, hb.1, hb.2]
      rw [if_pos hb, hA']
      simp
    · have hb' := bothEof_false s hb
      rw [if_neg hb]
      by_cases hA : s.audio_is_eof = false ∧ timeLE (audioTime p s) (videoTime s) = true
      · have hA' : audioSelected p s = true := by
          unfold audioSelected
          simp [loopActive, hp, hb', hA.1, hA.2]
        rw [if_pos hA, (write_audio_frame_keeps _ _ _ _).1, hA']
        simp
      · have hA' := audioSelected_false_of_not p s hA
        rw [if_neg hA, hA']
        by_cases hV : s.video_is_eof = false ∧ timeLT (videoTime s) (audioTime p s) = true
        · rw [if_pos hV, (write_video_frame_keeps _ _ _).1]
          simp
        · rw [if_neg hV]
          simp
  · have hA' : audioSelected p s = false := by
      unfold audioSelected
      simp [hp]
    rw [if_neg hp, hA']
    simp

lemma sched_step_vcalls (p : Params) (ora : Oracle) (s : MuxState) :
    (sched_step p ora s).vcalls =
      (if videoSelected p s = true then s.vcalls + 1 else s.vcalls) := by
  unfold sched_step
  by_cases hp : s.phase = Phase.running
  · rw [if_pos hp]
    by_cases hb : s.audio_is_eof = true ∧ s.video_is_eof = true
    · have hV' : videoSelected p s = false := by
        unfold videoSelected
        simp [loopActive, hb.1, hb.2]
      rw [if_pos hb, hV']
      simp
    · have hb' := bothEof_false s hb
      rw [if_neg hb]
      by_cases hA : s.audio_is_eof = false ∧ timeLE (audioTime p s) (videoTime s) = true
      · have hV' := videoSelected_false_of_le p s hA.2
        rw [if_pos hA, (write_audio_frame_keeps _ _ _ _).2.1, hV']
        simp
      · rw [if_neg hA]
        by_cases hV : s.video_is_eof = false ∧ timeLT (videoTime s) (audioTime p s) = true
        · have hV' : videoSelected p s = true := by
            unfold videoSelected
            simp [loopActive, hp, hb', hV.1, hV.2]
          rw [if_pos hV, (write_video_frame_keeps _ _ _).2.1, hV']
          simp
        · have hV' := videoSelected_false_of_not p s hV
          rw [if_neg hV, hV']
          simp
  · have hV' : videoSelected p s = false := by
      unfold videoSelected
      simp [hp]
    rw [if_neg hp, hV']
    simp

/-! ### Run-level facts -/

lemma bool_le_or (x y : Bool) : x ≤ (x || y) := by
  cases x <;> cases y <;> decide

lemma timeLE_refl (x : Option ℚ) : timeLE x x = true := by
  rcases x with _ | a
  · rfl
  · exact decide_eq_true le_rfl

lemma muxRun_flush_mono (p : Params) (ora : Oracle) (hdr : Bool) (n k : ℕ) :
    (muxRun p ora hdr n).flush ≤ (muxRun p ora hdr (n + k)).flush := by
  induction k with
  | zero => exact le_refl _
  | succ k ih =>
      refine le_trans ih ?_
      have h2 : muxRun p ora hdr (n + k + 1) = sched_step p ora (muxRun p ora hdr (n + k)) := rfl
      rw [show n + (k + 1) = n + k + 1 from rfl, h2, sched_step_flush]
      exact bool_le_or _ _

lemma muxRun_hdr_false (p : Params) (ora : Oracle) (n : ℕ) :
    (muxRun p ora false n).phase = Phase.aborted := by
  induction n with
  | zero => rfl
  | succ n ih =>
      have : muxRun p ora false (n + 1) = sched_step p ora (muxRun p ora false n) := rfl
      rw [this, sched_step_not_running]
      · exact ih
      · rw [ih]
        intro h
        exact Phase.noConfusion h

lemma sched_step_to_done (p : Params) (ora : Oracle) (s : MuxState)
    (hp : s.phase = Phase.running)
    (hb : s.audio_is_eof = true ∧ s.video_is_eof = true) :
    (sched_step p ora s).phase = Phase.done := by
  unfold sched_step
  rw [if_pos hp, if_pos hb]

lemma sched_step_phase_ne_done (p : Params) (ora : Oracle) (s : MuxState)
    (hp : s.phase = Phase.running)
    (hb : ¬(s.audio_is_eof = true ∧ s.video_is_eof = true)) :
    (sched_step p ora s).phase ≠ Phase.done := by
  unfold sched_step
  rw [if_pos hp, if_neg hb]
  split_ifs with hA hV
  · exact write_audio_frame_phase _ _ _ _ hp
  · exact write_video_frame_phase _ _ _ hp
  · intro h
    rw [show ({ s with flush := flushAfter p s } : MuxState).phase = s.phase from rfl, hp] at h
    exact Phase.noConfusion h

lemma wvf_ok_step (c : VideoCall) (f : Bool) (s : MuxState)
    (h : videoCallAborts c f s = false) :
    (write_video_frame c f s).frame_count = s.frame_count + 1 ∧
    (write_video_frame c f s).video_pts = (s.frame_count : ℚ) := by
  obtain ⟨sw, e⟩ := c
  unfold write_video_frame video_encode_emit videoCallAborts at *
  rcases e with _ | _ | ⟨w, pts⟩ <;> (try cases w) <;> cases f <;>
    (try split_ifs) <;> simp_all

lemma foldl_max_drop_init (srcN d : ℕ) (ds : List ℕ) :
    ((d :: ds).map (fun x => x + srcN)).foldl max srcN =
      ((d :: ds).map (fun x => x + srcN)).foldl max 0 := by
  simp only [List.map_cons, List.foldl_cons, Nat.zero_max,
    Nat.max_eq_right (Nat.le_add_left srcN d)]

/-! ## Claim theorems -/

/-- C4: a request at or below the current capacity leaves the buffer, its
capacity and its size untouched (no reallocation); a larger request replaces
the storage (fresh allocation), sized and capacitied exactly to the request;
capacity never decreases; and across the program's sequence of requests
(each `swr_get_delay + src_nb_samples`, starting from capacity
`src_nb_samples`) the final capacity is the maximum request made. -/
theorem C4_buffer_capacity (sizeFn : ℕ → ℕ) (srcN : ℕ) (b : BufState)
    (m n : ℕ) (delays : List ℕ)
    (hm : m ≤ b.cap) (hn : b.cap < n) (hne : delays ≠ []) :
    ensureCapacity sizeFn m b = b ∧
    ((ensureCapacity sizeFn n b).cap = n ∧
      (ensureCapacity sizeFn n b).bufId = b.bufId + 1 ∧
      (ensureCapacity sizeFn n b).size = sizeFn n) ∧
    b.cap ≤ (ensureCapacity sizeFn n b).cap ∧
    ((delays.map (fun dl => dl + srcN)).foldl
        (fun st r => ensureCapacity sizeFn r st) (initBuf sizeFn srcN)).cap =
      (delays.map (fun dl => dl + srcN)).foldl max 0 := by
  refine ⟨?_, ?_, ?_, ?_⟩
  · unfold ensureCapacity
    rw [if_neg (not_lt.mpr hm)]
  · unfold ensureCapacity
    rw [if_pos hn]
    exact ⟨rfl, rfl, rfl⟩
  · rw [ensureCapacity_cap]
    exact le_max_left _ _
  · rw [foldl_ensureCapacity_cap]
    rcases delays with _ | ⟨d, ds⟩
    · exact absurd rfl hne
    · exact foldl_max_drop_init srcN d ds

theorem C4_buffer_capacity_witness :
    3 ≤ (⟨5, 0, 5⟩ : BufState).cap ∧ (⟨5, 0, 5⟩ : BufState).cap < 9 ∧
    ([1] : List ℕ) ≠ [] ∧
    (ensureCapacity (fun k => k) 3 ⟨5, 0, 5⟩ = ⟨5, 0, 5⟩ ∧
      ((ensureCapacity (fun k => k) 9 ⟨5, 0, 5⟩).cap = 9 ∧
        (ensureCapacity (fun k => k) 9 ⟨5, 0, 5⟩).bufId = 0 + 1 ∧
        (ensureCapacity (fun k => k) 9 ⟨5, 0, 5⟩).size = (fun k => k) 9) ∧
      (⟨5, 0, 5⟩ : BufState).cap ≤ (ensureCapacity (fun k => k) 9 ⟨5, 0, 5⟩).cap ∧
      (([1].map (fun dl => dl + 2)).foldl
          (fun st r => ensureCapacity (fun k => k) r st) (initBuf (fun k => k) 2)).cap =
        ([1].map (fun dl => dl + 2)).foldl max 0) :=
  ⟨by decide, by decide, by decide,
    C4_buffer_capacity (fun k => k) 2 ⟨5, 0, 5⟩ 3 9 [1]
      (by decide) (by decide) (by decide)⟩

/-- C5: for valid (positive) source and target timebases, the writer's
rescaling — nearest rounding with ties away from zero — maps every
non-decreasing timestamp sequence to a non-decreasing output sequence. -/
theorem C5_rescale_monotone (bq cq : AVRational) (ts : List ℤ)
    (hb : bq.valid) (hc : cq.valid) (hts : ts.Chain' (· ≤ ·)) :
    (ts.map (fun v => av_rescale_q_near v bq cq)).Chain' (· ≤ ·) := by
  rw [List.chain'_map]
  exact List.Chain'.imp (fun a b h => av_rescale_q_near_mono bq cq hb hc h) hts

theorem C5_rescale_monotone_witness :
    (⟨1, 48000⟩ : AVRational).valid ∧ (⟨1, 1000⟩ : AVRational).valid ∧
    ([0, 48, 100] : List ℤ).Chain' (· ≤ ·) ∧
    (([0, 48, 100] : List ℤ).map
        (fun v => av_rescale_q_near v ⟨1, 48000⟩ ⟨1, 1000⟩)).Chain' (· ≤ ·) :=
  ⟨by decide, by decide, by norm_num [List.chain'_cons],
    C5_rescale_monotone ⟨1, 48000⟩ ⟨1, 1000⟩ [0, 48, 100]
      (by decide) (by decide) (by norm_num [List.chain'_cons])⟩

/-- C8: when one timebase is an exact integer multiple of the other (ratio
`k`) and the timestamp is a multiple of `k`, rescaling there and back under
the same nearest-away rounding returns the original value. -/
theorem C8_rescale_roundtrip (bq cq : AVRational) (k v : ℤ)
    (hb : bq.valid) (hc : cq.valid) (hk : 0 < k)
    (hmul : bq.num * cq.den = k * (bq.den * cq.num) ∨
      bq.den * cq.num = k * (bq.num * cq.den))
    (hv : k ∣ v) :
    av_rescale_q_near (av_rescale_q_near v bq cq) cq bq = v := by
  obtain ⟨m, hm⟩ := hv
  have hq : 0 < bq.den * cq.num := mul_pos hb.2 hc.1
  have hp : 0 < cq.den * bq.num := mul_pos hc.2 hb.1
  unfold av_rescale_q_near
  rcases hmul with h | h
  · have e1 : v * bq.num * cq.den = v * k * (bq.den * cq.num) := by
      linear_combination v * h
    rw [e1, nearAwayDiv_mul_cancel _ _ hq]
    have e2 : v * k * cq.num * bq.den = v * (cq.den * bq.num) := by
      linear_combination (-v) * h
    rw [e2, nearAwayDiv_mul_cancel _ _ hp]
  · have e1 : v * bq.num * cq.den = m * (bq.den * cq.num) := by
      rw [hm]
      linear_combination (-m) * h
    rw [e1, nearAwayDiv_mul_cancel _ _ hq]
    have e2 : m * cq.num * bq.den = m * k * (cq.den * bq.num) := by
      linear_combination m * h
    rw [e2, nearAwayDiv_mul_cancel _ _ hp, hm, mul_comm]

theorem C8_rescale_roundtrip_witness :
    (⟨1, 48000⟩ : AVRational).valid ∧ (⟨1, 1000⟩ : AVRational).valid ∧
    (0 : ℤ) < 48 ∧
    ((⟨1, 48000⟩ : AVRational).num * (⟨1, 1000⟩ : AVRational).den =
        48 * ((⟨1, 48000⟩ : AVRational).den * (⟨1, 1000⟩ : AVRational).num) ∨
      (⟨1, 48000⟩ : AVRational).den * (⟨1, 1000⟩ : AVRational).num =
        48 * ((⟨1, 48000⟩ : AVRational).num * (⟨1, 1000⟩ : AVRational).den)) ∧
    (48 : ℤ) ∣ 96 ∧
    av_rescale_q_near (av_rescale_q_near 96 ⟨1, 48000⟩ ⟨1, 1000⟩)
      ⟨1, 1000⟩ ⟨1, 48000⟩ = 96 :=
  ⟨by decide, by decide, by decide, by decide, by decide,
    C8_rescale_roundtrip ⟨1, 48000⟩ ⟨1, 1000⟩ 48 96
      (by decide) (by decide) (by decide) (by decide) (by decide)⟩

/-- C9: the run proceeds past setup exactly when the deduced format's
default codecs are MP3 audio and MPEG-4 video (the two asserts), the
pipelines are then driven with exactly that codec pair, and the format
deduced for `test.avi` does pass the gate. -/
theorem C9_assert_gate :
    (∀ fmt pr, setupCodecs fmt = some pr → pr = (CodecID.mp3, CodecID.mpeg4)) ∧
    setupCodecs deducedAviFormat = some (CodecID.mp3, CodecID.mpeg4) ∧
    (∀ fmt : OutputFormat,
      ¬(fmt.audio_codec = CodecID.mp3 ∧ fmt.video_codec = CodecID.mpeg4) →
        setupCodecs fmt = none) := by
  refine ⟨?_, by decide, ?_⟩
  · intro fmt pr h
    unfold setupCodecs at h
    split_ifs at h with hc
    have h2 := Option.some.inj h
    rw [← h2, hc.1, hc.2]
  · intro fmt h
    unfold setupCodecs
    rw [if_neg h]

theorem C9_assert_gate_witness :
    setupCodecs ⟨CodecID.ac3, CodecID.mpeg4⟩ = none ∧
    setupCodecs ⟨CodecID.mp3, CodecID.idNone⟩ = none ∧
    setupCodecs deducedAviFormat = some (CodecID.mp3, CodecID.mpeg4) :=
  ⟨C9_assert_gate.2.2 ⟨CodecID.ac3, CodecID.mpeg4⟩ (by decide),
    C9_assert_gate.2.2 ⟨CodecID.mp3, CodecID.idNone⟩ (by decide),
    C9_assert_gate.2.1⟩

/-- C1: in every running loop iteration with both streams active, the audio
emit step is invoked whenever `audioTime <= videoTime` (so audio wins exact
ties, in particular whenever the two times are equal), and the video emit
step is invoked only when `videoTime < audioTime`. -/
theorem C1_scheduler_selection (p : Params) (ora : Oracle) (s : MuxState)
    (hp : s.phase = Phase.running)
    (ha : s.audio_is_eof = false) (hv : s.video_is_eof = false) :
    (timeLE (audioTime p s) (videoTime s) = true →
      (sched_step p ora s).acalls = s.acalls + 1 ∧
      (sched_step p ora s).vcalls = s.vcalls) ∧
    ((sched_step p ora s).vcalls ≠ s.vcalls →
      timeLT (videoTime s) (audioTime p s) = true) ∧
    (audioTime p s = videoTime s →
      (sched_step p ora s).acalls = s.acalls + 1 ∧
      (sched_step p ora s).vcalls = s.vcalls) := by
  have hloop : loopActive s = true := by simp [loopActive, ha, hv]
  have hmain : timeLE (audioTime p s) (videoTime s) = true →
      (sched_step p ora s).acalls = s.acalls + 1 ∧
      (sched_step p ora s).vcalls = s.vcalls := by
    intro hle
    have hAsel : audioSelected p s = true := by
      simp [audioSelected, hp, hloop, ha, hle]
    have hVsel : videoSelected p s = false := videoSelected_false_of_le p s hle
    rw [sched_step_acalls, sched_step_vcalls, hAsel, hVsel]
    simp
  refine ⟨hmain, ?_, ?_⟩
  · intro hne
    cases hlt : timeLT (videoTime s) (audioTime p s)
    · have hVsel : videoSelected p s = false := by
        simp [videoSelected, hlt]
      rw [sched_step_vcalls, hVsel] at hne
      simp at hne
    · rfl
  · intro heq
    exact hmain (by rw [heq]; exact timeLE_refl _)

theorem C1_scheduler_selection_witness :
    (initState sampleParams true).phase = Phase.running ∧
    (initState sampleParams true).audio_is_eof = false ∧
    (initState sampleParams true).video_is_eof = false ∧
    audioTime sampleParams (initState sampleParams true) =
      videoTime (initState sampleParams true) ∧
    (sched_step sampleParams sampleOracle (initState sampleParams true)).acalls =
      (initState sampleParams true).acalls + 1 ∧
    (sched_step sampleParams sampleOracle (initState sampleParams true)).vcalls =
      (initState sampleParams true).vcalls :=
  ⟨rfl, rfl, rfl, by norm_num [audioTime, videoTime, initState, sampleParams],
    ((C1_scheduler_selection sampleParams sampleOracle (initState sampleParams true)
        rfl rfl rfl).2.2
      (by norm_num [audioTime, videoTime, initState, sampleParams])).1,
    ((C1_scheduler_selection sampleParams sampleOracle (initState sampleParams true)
        rfl rfl rfl).2.2
      (by norm_num [audioTime, videoTime, initState, sampleParams])).2⟩

/-- C2: in every iteration the flush flag becomes the previous flag OR-ed
with the condition that the iteration runs and every still-active stream's
running time has reached the 5.0-second target (an inactive stream counts as
`INFINITY`), so it is set in the first iteration where that condition holds;
and the flag is monotone: once set it stays set in all later iterations. -/
theorem C2_flush_monotone (p : Params) (ora : Oracle) (hdr : Bool) (n k : ℕ) :
    (muxRun p ora hdr (n + 1)).flush =
      ((muxRun p ora hdr n).flush || flushCond p (muxRun p ora hdr n)) ∧
    (muxRun p ora hdr n).flush ≤ (muxRun p ora hdr (n + k)).flush :=
  ⟨sched_step_flush p ora (muxRun p ora hdr n), muxRun_flush_mono p ora hdr n k⟩

/-- C3: each stream's EOF flag after a scheduler iteration is the old flag
OR-ed with the trigger "this iteration called that stream's emit step in
flushing mode and the encoder produced no unit" — so the flag is set exactly
at the first such call and never cleared; and once a stream's flag is set,
an iteration neither calls that stream's emit step again nor clears the
flag. -/
theorem C3_eof_latch (p : Params) (ora : Oracle) (s : MuxState) :
    ((sched_step p ora s).audio_is_eof =
      (s.audio_is_eof || audioEofTrigger p ora s)) ∧
    ((sched_step p ora s).video_is_eof =
      (s.video_is_eof || videoEofTrigger p ora s)) ∧
    (s.audio_is_eof = true →
      (sched_step p ora s).acalls = s.acalls ∧
      (sched_step p ora s).audio_is_eof = true) ∧
    (s.video_is_eof = true →
      (sched_step p ora s).vcalls = s.vcalls ∧
      (sched_step p ora s).video_is_eof = true) := by
  refine ⟨sched_step_audio_eof p ora s, sched_step_video_eof p ora s, ?_, ?_⟩
  · intro ha
    have hsel : audioSelected p s = false := by
      simp [audioSelected, ha]
    constructor
    · rw [sched_step_acalls, hsel]
      simp
    · rw [sched_step_audio_eof, ha]
      simp
  · intro hv
    have hsel : videoSelected p s = false := by
      simp [videoSelected, hv]
    constructor
    · rw [sched_step_vcalls, hsel]
      simp
    · rw [sched_step_video_eof, hv]
      simp

theorem C3_eof_latch_witness :
    sampleEofState.audio_is_eof = true ∧ sampleEofState.video_is_eof = true ∧
    ((sched_step sampleParams sampleOracle sampleEofState).acalls =
        sampleEofState.acalls ∧
      (sched_step sampleParams sampleOracle sampleEofState).audio_is_eof = true) ∧
    ((sched_step sampleParams sampleOracle sampleEofState).vcalls =
        sampleEofState.vcalls ∧
      (sched_step sampleParams sampleOracle sampleEofState).video_is_eof = true) :=
  ⟨rfl, rfl,
    (C3_eof_latch sampleParams sampleOracle sampleEofState).2.2.1 rfl,
    (C3_eof_latch sampleParams sampleOracle sampleEofState).2.2.2 rfl⟩

/-- C6 (amended): after a successful audio emit (packet produced and
written), `audio_pts` is recomputed from the sample counter as
`samples_count * time_base.den / time_base.num / sample_rate` (line 270);
the emitted unit's own timestamp is not consulted — the whole resulting
state is unchanged under any change of the packet timestamp. -/
theorem C6_audio_pts_from_counter (p : Params) (d : ℕ) (al cv w : Bool)
    (pts pts2 : ℤ) (fl : Bool) (s : MuxState)
    (hal : al = true) (hcv : cv = true) (hw : w = true) :
    (write_audio_frame p ⟨d, al, cv, EncOutcome.pkt w pts⟩ fl s).audio_pts =
      ((write_audio_frame p ⟨d, al, cv, EncOutcome.pkt w pts⟩ fl s).samples_count : ℚ) *
        (p.atbDen : ℚ) / (p.atbNum : ℚ) / 48000 ∧
    write_audio_frame p ⟨d, al, cv, EncOutcome.pkt w pts⟩ fl s =
      write_audio_frame p ⟨d, al, cv, EncOutcome.pkt w pts2⟩ fl s := by
  subst hal
  subst hcv
  subst hw
  unfold write_audio_frame audio_encode_emit
  constructor <;> cases fl <;> (try split_ifs) <;> simp_all

theorem C6_audio_pts_from_counter_witness :
    (write_audio_frame sampleParams ⟨0, true, true, EncOutcome.pkt true 7⟩ true
        (initState sampleParams true)).audio_pts =
      ((write_audio_frame sampleParams ⟨0, true, true, EncOutcome.pkt true 7⟩ true
          (initState sampleParams true)).samples_count : ℚ) *
        ((sampleParams.atbDen : ℚ)) / ((sampleParams.atbNum : ℚ)) / 48000 ∧
    write_audio_frame sampleParams ⟨0, true, true, EncOutcome.pkt true 7⟩ true
        (initState sampleParams true) =
      write_audio_frame sampleParams ⟨0, true, true, EncOutcome.pkt true 9⟩ true
        (initState sampleParams true) :=
  C6_audio_pts_from_counter sampleParams 0 true true true 7 9 true
    (initState sampleParams true) rfl rfl rfl

/-- C6 counterexample: with identical emitted-unit timestamps, two states
that differ only in the sample counter record different running times — so
`audio_pts` is recomputed from the counter, not updated from the unit's own
timestamp; and changing only the unit's timestamp leaves `audio_pts`
unchanged. -/
theorem C6_audio_pts_counterexample :
    (write_audio_frame sampleParams ⟨0, true, true, EncOutcome.pkt true 7⟩ true
        (initState sampleParams true)).audio_pts ≠
      (write_audio_frame sampleParams ⟨0, true, true, EncOutcome.pkt true 7⟩ true
        { initState sampleParams true with samples_count := 48000 }).audio_pts ∧
    (write_audio_frame sampleParams ⟨0, true, true, EncOutcome.pkt true 7⟩ true
        (initState sampleParams true)).audio_pts =
      (write_audio_frame sampleParams ⟨0, true, true, EncOutcome.pkt true 999⟩ true
        (initState sampleParams true)).audio_pts := by
  constructor <;>
    norm_num [write_audio_frame, audio_encode_emit, initState, sampleParams]

/-- C7 (amended): the trailer is attempted exactly when the header write
succeeded and the scheduler loop exits normally with both streams at end of
stream; any `exit(1)` path (encoder, converter, allocation or write failure)
terminates the run without the trailer ever being attempted. -/
theorem C7_trailer_iff_clean_exit (p : Params) (ora : Oracle) (hdr : Bool) (n : ℕ) :
    trailerAttempted (muxRun p ora hdr (n + 1)) =
      (hdr && (trailerAttempted (muxRun p ora hdr n) ||
        (decide ((muxRun p ora hdr n).phase = Phase.running) &&
          ((muxRun p ora hdr n).audio_is_eof && (muxRun p ora hdr n).video_is_eof)))) := by
  cases hdr
  · have h1 := muxRun_hdr_false p ora n
    have h2 := muxRun_hdr_false p ora (n + 1)
    simp [trailerAttempted, h1, h2]
  · have hstep : muxRun p ora true (n + 1) =
        sched_step p ora (muxRun p ora true n) := rfl
    rw [hstep]
    rcases hph : (muxRun p ora true n).phase with _ | _ | _
    · by_cases hb : (muxRun p ora true n).audio_is_eof = true ∧
          (muxRun p ora true n).video_is_eof = true
      · rw [show trailerAttempted (sched_step p ora (muxRun p ora true n)) =
            decide ((sched_step p ora (muxRun p ora true n)).phase = Phase.done)
            from rfl]
        rw [sched_step_to_done p ora _ hph hb]
        simp [trailerAttempted, hph, hb.1, hb.2]
      · have hnd := sched_step_phase_ne_done p ora _ hph hb
        have hb' := bothEof_false _ hb
        simp [trailerAttempted, hnd, hph, hb']
    · rw [sched_step_not_running p ora _
        (by rw [hph]; intro hcon; exact Phase.noConfusion hcon)]
      simp [trailerAttempted, hph]
    · rw [sched_step_not_running p ora _
        (by rw [hph]; intro hcon; exact Phase.noConfusion hcon)]
      simp [trailerAttempted, hph]

/-- C7 counterexample: header written successfully, audio encoder fails on
the first loop iteration — the run terminates in the aborted phase
(`exit(1)`), and the trailer is never attempted, neither then nor in any
later step (the aborted phase is absorbing). -/
theorem C7_trailer_counterexample :
    (muxRun sampleParams errOracle true 1).phase = Phase.aborted ∧
    trailerAttempted (muxRun sampleParams errOracle true 1) = false ∧
    (muxRun sampleParams errOracle true 2).phase = Phase.aborted ∧
    trailerAttempted (muxRun sampleParams errOracle true 2) = false := by
  have h1 : (muxRun sampleParams errOracle true 1).phase = Phase.aborted := by
    show (sched_step sampleParams errOracle (initState sampleParams true)).phase =
      Phase.aborted
    norm_num [sched_step, initState, sampleParams, errOracle, audioTime, videoTime,
      timeLE, flushAfter, durationReached, write_audio_frame, audio_encode_emit,
      ensureCapacity, initBuf]
  have h2 : (muxRun sampleParams errOracle true 2).phase = Phase.aborted := by
    have hstep : muxRun sampleParams errOracle true 2 =
        sched_step sampleParams errOracle (muxRun sampleParams errOracle true 1) := rfl
    rw [hstep, sched_step_not_running]
    · exact h1
    · rw [h1]
      intro hcon
      exact Phase.noConfusion hcon
  exact ⟨h1, by simp [trailerAttempted, h1], h2, by simp [trailerAttempted, h2]⟩

/-- C10: every video emit call that does not abort the run increments the
frame counter exactly once — including flush calls (null input) and calls
where the encoder buffers and produces no unit — and records
`video_pts = frame->pts`, the counter value before the call; consequently
over consecutive video calls the recorded running time increases by exactly
one, including during the flush phase. -/
theorem C10_video_frame_counter (c1 c2 : VideoCall) (f1 f2 : Bool) (s : MuxState)
    (h1 : videoCallAborts c1 f1 s = false)
    (h2 : videoCallAborts c2 f2 (write_video_frame c1 f1 s) = false) :
    (write_video_frame c1 f1 s).frame_count = s.frame_count + 1 ∧
    (write_video_frame c1 f1 s).video_pts = (s.frame_count : ℚ) ∧
    (write_video_frame c2 f2 (write_video_frame c1 f1 s)).video_pts =
      (write_video_frame c1 f1 s).video_pts + 1 := by
  obtain ⟨ha, hb⟩ := wvf_ok_step c1 f1 s h1
  obtain ⟨hc, hd⟩ := wvf_ok_step c2 f2 _ h2
  refine ⟨ha, hb, ?_⟩
  rw [hd, ha, hb]
  push_cast
  ring

theorem C10_video_frame_counter_witness :
    videoCallAborts ⟨true, EncOutcome.silent⟩ true (initState sampleParams true) = false ∧
    videoCallAborts ⟨true, EncOutcome.pkt true 0⟩ true
      (write_video_frame ⟨true, EncOutcome.silent⟩ true (initState sampleParams true)) =
        false ∧
    ((write_video_frame ⟨true, EncOutcome.silent⟩ true
        (initState sampleParams true)).frame_count =
        (initState sampleParams true).frame_count + 1 ∧
      (write_video_frame ⟨true, EncOutcome.silent⟩ true
          (initState sampleParams true)).video_pts =
        ((initState sampleParams true).frame_count : ℚ) ∧
      (write_video_frame ⟨true, EncOutcome.pkt true 0⟩ true
          (write_video_frame ⟨true, EncOutcome.silent⟩ true
            (initState sampleParams true))).video_pts =
        (write_video_frame ⟨true, EncOutcome.silent⟩ true
          (initState sampleParams true)).video_pts + 1) :=
  ⟨rfl, rfl, C10_video_frame_counter _ _ _ _ _ rfl rfl⟩
